import Mathlib

/-!
Shallow embedding of `src/check_live.js` (a Twitch live-status batch job)
and proofs about its specification.

The JavaScript source is embedded as executable Lean definitions:
spreadsheet cells become an inductive `Cell` mirroring the JS value space
relevant to the program (string, number, boolean, undefined); JS truthiness
and string coercion are modelled explicitly; the network is modelled as an
explicit response argument (one OAuth response, and a function from a
streams query to its response); the mutable token cache and the output file
become explicit state passed in and returned.
-/

/-- A spreadsheet cell value as produced by `XLSX.utils.sheet_to_json`:
a string, a number, a boolean, or absent (`undefined` in JS). -/
inductive Cell where
  | str (s : String)
  | num (n : Int)
  | boolv (b : Bool)
  | undef
deriving DecidableEq, Repr

/-- JS truthiness of a cell value: empty string, zero, `false` and
`undefined` are falsy; everything else is truthy. -/
def Cell.truthy : Cell → Bool
  | .str s => s ≠ ""
  | .num n => n ≠ 0
  | .boolv b => b
  | .undef => false

/-- The JS `toString()` of a cell value. -/
def Cell.jsToString : Cell → String
  | .str s => s
  | .num n => toString n
  | .boolv b => if b then "true" else "false"
  | .undef => "undefined"

/-- Model of the JS expression `(c || "").toString()`: a falsy cell is
replaced by the empty string before conversion. -/
def jsOrEmptyStr (c : Cell) : String :=
  if c.truthy then c.jsToString else ""

/-- Model of JS `String.prototype.trim`: drop whitespace from both ends.
Structural (list-based) so that it evaluates in the kernel. -/
def jsTrim (s : String) : String :=
  ⟨((s.data.dropWhile Char.isWhitespace).reverse.dropWhile Char.isWhitespace).reverse⟩

/-- Model of JS `String.prototype.toLowerCase`, character by character. -/
def jsToLower (s : String) : String :=
  ⟨s.data.map Char.toLower⟩

/-- The loop body of `loadUsernames` (src/check_live.js lines 49-55):
for each data row take column A as `username` and column E as `recent`,
both coerced through `(cell || "").toString().trim()` (and `toLowerCase`
for column E), and keep the username when
`username && recent && recent !== "no" && recent !== "false"`. -/
def loadLoop : List (List Cell) → List String
  | [] => []
  | row :: rest =>
    let username := jsTrim (jsOrEmptyStr (row.getD 0 .undef))
    let recent := jsToLower (jsTrim (jsOrEmptyStr (row.getD 4 .undef)))
    if username ≠ "" && recent ≠ "" && recent ≠ "no" && recent ≠ "false" then
      username :: loadLoop rest
    else
      loadLoop rest

/-- `loadUsernames` (src/check_live.js lines 43-57): skip the header row
(the loop starts at index 1) and run the filtering loop over the data rows. -/
def loadUsernames (rows : List (List Cell)) : List String :=
  loadLoop (rows.drop 1)

/-- Spec-side reading of a row's identifier: column A coerced to trimmed
string (spec section 4.3). -/
def specIdent (row : List Cell) : String :=
  jsTrim (jsOrEmptyStr (row.getD 0 .undef))

/-- Spec-side reading of a row's inclusion flag: column E coerced to
trimmed string (spec section 4.3). -/
def specFlag (row : List Cell) : String :=
  jsTrim (jsOrEmptyStr (row.getD 4 .undef))

/-- Spec-side inclusion condition (spec section 4.3): identifier non-empty,
flag non-empty, and the flag's lowercase form neither "no" nor "false". -/
def specIncluded (row : List Cell) : Bool :=
  specIdent row ≠ "" && specFlag row ≠ "" &&
    jsToLower (specFlag row) ≠ "no" && jsToLower (specFlag row) ≠ "false"

/-- The token cache slot (src/check_live.js line 24):
`let tokenCache = { token: null, expiry: 0 }`. The token is `null` or a
string; `expiry` is a millisecond epoch timestamp. -/
structure TokenCache where
  token : Option String
  expiry : Int
deriving DecidableEq, Repr

/-- The initial module-level cache value `{ token: null, expiry: 0 }`. -/
def initialCache : TokenCache := ⟨none, 0⟩

/-- JS truthiness of the `token` slot: `null` and the empty string are
falsy. -/
def jsTruthyOpt : Option String → Bool
  | none => false
  | some s => s ≠ ""

/-- The parsed body of the OAuth token endpoint response: an optional
`access_token`, an `expires_in` in seconds, and `raw`, standing for
`JSON.stringify(data)`, the serialized body used in the error message. -/
structure OAuthResponse where
  access_token : Option String
  expires_in : Int
  raw : String
deriving DecidableEq, Repr

/-- The outcome of one `getToken` call: the returned token or the thrown
error message, the cache slot after the call, and how many
credential-exchange requests the call issued. -/
structure TokenResult where
  outcome : Except String String
  cache : TokenCache
  requests : Nat
deriving Repr

/-- `getToken` (src/check_live.js lines 27-40). If the cached token is
truthy and `now < tokenCache.expiry`, return it with no network request.
Otherwise issue one credential-exchange request; if the response's
`access_token` is falsy, throw `"Failed to fetch Twitch token: " +
JSON.stringify(data)` leaving the cache unchanged; otherwise store the
token with expiry `now + data.expires_in * 1000 - 60000` and return it. -/
def getToken (now : Int) (cache : TokenCache) (resp : OAuthResponse) : TokenResult :=
  if jsTruthyOpt cache.token && decide (now < cache.expiry) then
    { outcome := .ok (cache.token.getD ""), cache := cache, requests := 0 }
  else if jsTruthyOpt resp.access_token then
    let tok := resp.access_token.getD ""
    { outcome := .ok tok,
      cache := { token := some tok, expiry := now + resp.expires_in * 1000 - 60000 },
      requests := 1 }
  else
    { outcome := .error ("Failed to fetch Twitch token: " ++ resp.raw),
      cache := cache, requests := 1 }

/-- One entry of a streams response's `data` array: `user_name`,
optional `title` and `game_name`, and `started_at`. -/
structure StreamEntry where
  user_name : String
  title : Option String
  game_name : Option String
  started_at : String
deriving DecidableEq, Repr

/-- A `LiveRecord` as pushed by `checkLive` (src/check_live.js lines
76-81). -/
structure LiveRecord where
  username : String
  title : String
  game : String
  started_at : String
deriving DecidableEq, Repr

/-- Build one `LiveRecord` from a response entry: `title` and `game`
default to the empty string when absent (`s.title || ""`,
`s.game_name || ""`); `username` and `started_at` are copied verbatim. -/
def mkRecord (s : StreamEntry) : LiveRecord :=
  { username := s.user_name, title := s.title.getD "", game := s.game_name.getD "",
    started_at := s.started_at }

/-- A streams query response: `some entries` when the body has a `data`
array, `none` when it does not (`if (data.data)` fails). -/
def StreamsResponse := Option (List StreamEntry)

/-- The records contributed by one batch response (`if (data.data)` plus
the inner push loop, src/check_live.js lines 74-83): a response with no
`data` array contributes nothing. -/
def recsOf : Option (List StreamEntry) → List LiveRecord
  | some ds => ds.map mkRecord
  | none => []

/-- The batching loop of `checkLive` (src/check_live.js lines 67-84),
with explicit fuel for structural recursion; `fuel ≥ names.length` makes
the fuel case unreachable. Each iteration takes a batch of at most 100
names, issues one query (recorded in the first component), and appends
the records of the response's `data` array when present. -/
def checkLiveLoopF (api : List String → Option (List StreamEntry)) :
    Nat → List String → List (List String) × List LiveRecord
  | 0, _ => ([], [])
  | _ + 1, [] => ([], [])
  | fuel + 1, names@(_ :: _) =>
    let batch := names.take 100
    let recs := recsOf (api batch)
    let rest := checkLiveLoopF api fuel (names.drop 100)
    (batch :: rest.1, recs ++ rest.2)

/-- The batching loop at adequate fuel (one unit per iteration suffices
since every iteration consumes at least one name). -/
def checkLiveLoop (api : List String → Option (List StreamEntry))
    (names : List String) : List (List String) × List LiveRecord :=
  checkLiveLoopF api names.length names

/-- `checkLive` (src/check_live.js lines 60-86): obtain a token first
(propagating a thrown error, in which case no streams query is issued),
then run the batching loop. Returns the token call's result, the list of
issued queries, and the aggregated records or the propagated error. -/
def checkLive (now : Int) (cache : TokenCache) (oauth : OAuthResponse)
    (api : List String → Option (List StreamEntry)) (names : List String) :
    TokenResult × List (List String) × Except String (List LiveRecord) :=
  let t := getToken now cache oauth
  match t.outcome with
  | .error e => (t, [], .error e)
  | .ok _ => ((t, (checkLiveLoop api names).1, .ok (checkLiveLoop api names).2))

/-- The credential pair (`CONFIG`, src/check_live.js line 11). -/
structure Credentials where
  twitch_client_id : String
  twitch_client_secret : String
deriving DecidableEq, Repr

/-- Config resolution (src/check_live.js lines 11-22). Environment
variables are `Option String` (unset = `none`); the config file read plus
parse is `Except Unit Credentials` (`.error ()` when the file is missing
or malformed, which is what the `catch` handles). Returns the resulting
`CONFIG` and whether the warning was printed. If both env vars are truthy
they are used; otherwise the file's parsed contents replace `CONFIG`
wholesale; on a read/parse exception `CONFIG` keeps its initial empty
fields and the warning is emitted. -/
def resolveConfig (envId envSecret : Option String)
    (file : Except Unit Credentials) : Credentials × Bool :=
  if jsTruthyOpt envId && jsTruthyOpt envSecret then
    ({ twitch_client_id := envId.getD "", twitch_client_secret := envSecret.getD "" }, false)
  else
    match file with
    | .ok c => (c, false)
    | .error _ => ({ twitch_client_id := "", twitch_client_secret := "" }, true)

/-- The on-disk snapshot (`out`, src/check_live.js lines 89-92). -/
structure Snapshot where
  timestamp : String
  live : List LiveRecord
deriving DecidableEq, Repr

/-- `writeJSON` (src/check_live.js lines 88-96): build the snapshot from
the current time's ISO string and the records exactly as given. -/
def writeJSON (nowIso : String) (liveList : List LiveRecord) : Snapshot :=
  { timestamp := nowIso, live := liveList }

/-- The observable result of one `main` run: the process exit code, the
output file contents after the run (`none` if no file exists), the
streams queries issued, and the credential-exchange requests issued. -/
structure RunResult where
  exitCode : Nat
  file : Option Snapshot
  queries : List (List String)
  tokenRequests : Nat
deriving DecidableEq, Repr

/-- `main` (src/check_live.js lines 99-112): load usernames; on an empty
roster warn and return (exit 0, file untouched); otherwise run
`checkLive` and write the snapshot, or, if an error was thrown, leave the
file untouched and set exit code 1. -/
def runMain (rows : List (List Cell)) (now : Int) (cache : TokenCache)
    (oauth : OAuthResponse) (api : List String → Option (List StreamEntry))
    (nowIso : String) (prevFile : Option Snapshot) : RunResult :=
  let names := loadUsernames rows
  if names.isEmpty then
    { exitCode := 0, file := prevFile, queries := [], tokenRequests := 0 }
  else
    match checkLive now cache oauth api names with
    | (t, qs, .error _) =>
      { exitCode := 1, file := prevFile, queries := qs, tokenRequests := t.requests }
    | (t, qs, .ok liveList) =>
      { exitCode := 0, file := some (writeJSON nowIso liveList), queries := qs,
        tokenRequests := t.requests }

/-- A concrete roster of 250 distinct identifiers, used as a witness
input for the batching claim. -/
def names250 : List String := (List.range 250).map toString

theorem jsToLower_eq_empty_iff (s : String) : jsToLower s = "" ↔ s = "" := by
  cases s with
  | mk data =>
    simp [jsToLower, String.ext_iff]

theorem loopCond_eq (row : List Cell) :
    (decide (jsTrim (jsOrEmptyStr (row.getD 0 .undef)) ≠ "") &&
     decide (jsToLower (jsTrim (jsOrEmptyStr (row.getD 4 .undef))) ≠ "") &&
     decide (jsToLower (jsTrim (jsOrEmptyStr (row.getD 4 .undef))) ≠ "no") &&
     decide (jsToLower (jsTrim (jsOrEmptyStr (row.getD 4 .undef))) ≠ "false")) =
    specIncluded row := by
  simp only [specIncluded, specIdent, specFlag]
  congr 3
  exact decide_eq_decide.mpr (not_congr (jsToLower_eq_empty_iff _))

theorem loadLoop_eq_filter_map (rows : List (List Cell)) :
    loadLoop rows = (rows.filter specIncluded).map specIdent := by
  induction rows with
  | nil => rfl
  | cons row rest ih =>
    have hc := loopCond_eq row
    simp only [loadLoop]
    rw [hc]
    cases h : specIncluded row with
    | false =>
      rw [List.filter_cons_of_neg (by simp [h])]
      simpa using ih
    | true =>
      rw [List.filter_cons_of_pos h, List.map_cons]
      simp only [if_true]
      rw [ih]
      rfl

theorem checkLiveLoopF_nil (api : List String → Option (List StreamEntry))
    (fuel : Nat) : checkLiveLoopF api fuel [] = ([], []) := by
  cases fuel <;> rfl

theorem checkLiveLoopF_cons (api : List String → Option (List StreamEntry))
    (fuel : Nat) (n : String) (ns : List String) :
    checkLiveLoopF api (fuel + 1) (n :: ns) =
      ((n :: ns).take 100 :: (checkLiveLoopF api fuel ((n :: ns).drop 100)).1,
       recsOf (api ((n :: ns).take 100)) ++
         (checkLiveLoopF api fuel ((n :: ns).drop 100)).2) := rfl

theorem checkLiveLoopF_fuel (api : List String → Option (List StreamEntry)) :
    ∀ (f g : Nat) (names : List String), names.length ≤ f → names.length ≤ g →
      checkLiveLoopF api f names = checkLiveLoopF api g names := by
  intro f
  induction f with
  | zero =>
    intro g names hf _
    have hnil : names = [] := by
      cases names with
      | nil => rfl
      | cons n ns => simp at hf
    subst hnil
    rw [checkLiveLoopF_nil, checkLiveLoopF_nil]
  | succ f ih =>
    intro g names hf hg
    cases names with
    | nil => rw [checkLiveLoopF_nil, checkLiveLoopF_nil]
    | cons n ns =>
      cases g with
      | zero => simp at hg
      | succ g =>
        rw [checkLiveLoopF_cons, checkLiveLoopF_cons]
        have hd : ((n :: ns).drop 100).length ≤ f := by
          simp only [List.length_drop, List.length_cons] at *
          omega
        have hd2 : ((n :: ns).drop 100).length ≤ g := by
          simp only [List.length_drop, List.length_cons] at *
          omega
        rw [ih g _ hd hd2]

theorem checkLiveLoop_nil (api : List String → Option (List StreamEntry)) :
    checkLiveLoop api [] = ([], []) := rfl

theorem checkLiveLoop_cons (api : List String → Option (List StreamEntry))
    (n : String) (ns : List String) :
    checkLiveLoop api (n :: ns) =
      ((n :: ns).take 100 :: (checkLiveLoop api ((n :: ns).drop 100)).1,
       recsOf (api ((n :: ns).take 100)) ++
         (checkLiveLoop api ((n :: ns).drop 100)).2) := by
  show checkLiveLoopF api (ns.length + 1) (n :: ns) = _
  rw [checkLiveLoopF_cons]
  unfold checkLiveLoop
  rw [checkLiveLoopF_fuel api ns.length ((n :: ns).drop 100).length ((n :: ns).drop 100)
    (by simp only [List.length_drop, List.length_cons]; omega) le_rfl]

theorem checkLiveLoop_step (api : List String → Option (List StreamEntry))
    (names : List String) (h : names ≠ []) :
    (checkLiveLoop api names).1 =
      names.take 100 :: (checkLiveLoop api (names.drop 100)).1 := by
  cases names with
  | nil => exact absurd rfl h
  | cons n ns => rw [checkLiveLoop_cons]

theorem checkLiveLoopF_join (api : List String → Option (List StreamEntry)) :
    ∀ (f : Nat) (names : List String), names.length ≤ f →
      ((checkLiveLoopF api f names).1).flatten = names := by
  intro f
  induction f with
  | zero =>
    intro names hf
    have hnil : names = [] := by
      cases names with
      | nil => rfl
      | cons n ns => simp at hf
    subst hnil
    rw [checkLiveLoopF_nil]
    rfl
  | succ f ih =>
    intro names hf
    cases names with
    | nil =>
      rw [checkLiveLoopF_nil]
      rfl
    | cons n ns =>
      rw [checkLiveLoopF_cons]
      show ((n :: ns).take 100 ++ ((checkLiveLoopF api f ((n :: ns).drop 100)).1).flatten) = n :: ns
      rw [ih _ (by simp only [List.length_drop, List.length_cons] at *; omega)]
      exact List.take_append_drop 100 (n :: ns)

theorem checkLiveLoop_join (api : List String → Option (List StreamEntry))
    (names : List String) : ((checkLiveLoop api names).1).flatten = names :=
  checkLiveLoopF_join api names.length names le_rfl

theorem checkLiveLoopF_batches (api : List String → Option (List StreamEntry)) :
    ∀ (f : Nat) (names : List String), ∀ b ∈ (checkLiveLoopF api f names).1,
      b ≠ [] ∧ b.length ≤ 100 := by
  intro f
  induction f with
  | zero =>
    intro names b hb
    rw [show checkLiveLoopF api 0 names = ([], []) from rfl] at hb
    simp at hb
  | succ f ih =>
    intro names b hb
    cases names with
    | nil =>
      rw [checkLiveLoopF_nil] at hb
      simp at hb
    | cons n ns =>
      rw [checkLiveLoopF_cons] at hb
      rcases List.mem_cons.mp hb with h | h
      · subst h
        constructor
        · rw [show (n :: ns).take 100 = n :: ns.take 99 from rfl]
          exact List.cons_ne_nil n _
        · rw [List.length_take]
          exact min_le_left 100 _
      · exact ih _ b h

theorem checkLiveLoopF_queries_indep (api api2 : List String → Option (List StreamEntry)) :
    ∀ (f : Nat) (names : List String),
      (checkLiveLoopF api f names).1 = (checkLiveLoopF api2 f names).1 := by
  intro f
  induction f with
  | zero => intro names; rfl
  | succ f ih =>
    intro names
    cases names with
    | nil => rw [checkLiveLoopF_nil, checkLiveLoopF_nil]
    | cons n ns =>
      rw [checkLiveLoopF_cons, checkLiveLoopF_cons]
      rw [ih]

theorem checkLiveLoopF_records (api : List String → Option (List StreamEntry)) :
    ∀ (f : Nat) (names : List String),
      (checkLiveLoopF api f names).2 =
        ((checkLiveLoopF api f names).1).flatMap (fun b => recsOf (api b)) := by
  intro f
  induction f with
  | zero => intro names; rfl
  | succ f ih =>
    intro names
    cases names with
    | nil => rw [checkLiveLoopF_nil]; rfl
    | cons n ns =>
      rw [checkLiveLoopF_cons]
      show recsOf (api ((n :: ns).take 100)) ++ (checkLiveLoopF api f ((n :: ns).drop 100)).2 = _
      rw [ih]
      rfl

theorem checkLiveLoop_records (api : List String → Option (List StreamEntry))
    (names : List String) :
    (checkLiveLoop api names).2 =
      ((checkLiveLoop api names).1).flatMap (fun b => recsOf (api b)) :=
  checkLiveLoopF_records api names.length names

theorem checkLive_ok (now : Int) (cache : TokenCache) (oauth : OAuthResponse)
    (api : List String → Option (List StreamEntry)) (names : List String)
    (tok : String) (h : (getToken now cache oauth).outcome = .ok tok) :
    checkLive now cache oauth api names =
      (getToken now cache oauth, (checkLiveLoop api names).1,
        .ok (checkLiveLoop api names).2) := by
  simp only [checkLive, h]

theorem checkLive_error (now : Int) (cache : TokenCache) (oauth : OAuthResponse)
    (api : List String → Option (List StreamEntry)) (names : List String)
    (e : String) (h : (getToken now cache oauth).outcome = .error e) :
    checkLive now cache oauth api names = (getToken now cache oauth, [], .error e) := by
  simp only [checkLive, h]

theorem loadLoop_append (a b : List (List Cell)) :
    loadLoop (a ++ b) = loadLoop a ++ loadLoop b := by
  rw [loadLoop_eq_filter_map, loadLoop_eq_filter_map, loadLoop_eq_filter_map,
    List.filter_append, List.map_append]

theorem staleCond_false (now : Int) (cache : TokenCache)
    (hstale : ¬(jsTruthyOpt cache.token = true ∧ now < cache.expiry)) :
    (jsTruthyOpt cache.token && decide (now < cache.expiry)) = false := by
  by_cases h1 : jsTruthyOpt cache.token = true
  · have h2 : ¬(now < cache.expiry) := fun hlt => hstale ⟨h1, hlt⟩
    simp [h1, h2]
  · simp only [Bool.not_eq_true] at h1
    simp [h1]

/-- C1: loadUsernames keeps a data row's identifier exactly when the
identifier (column A, coerced to trimmed string) is non-empty, the
inclusion flag (column E, coerced to trimmed string) is non-empty, and the
flag's lowercase form is neither "no" nor "false"; in particular a flag
lowering to "no" or "false" excludes the row, an empty flag excludes the
row even when the identifier is present, and any other non-empty flag
includes it. -/
theorem c1_inclusion_filter (rows : List (List Cell)) :
    loadUsernames rows = ((rows.drop 1).filter specIncluded).map specIdent ∧
    (∀ row : List Cell, jsToLower (specFlag row) = "no" → specIncluded row = false) ∧
    (∀ row : List Cell, jsToLower (specFlag row) = "false" → specIncluded row = false) ∧
    (∀ row : List Cell, specFlag row = "" → specIncluded row = false) ∧
    (∀ row : List Cell, specIdent row ≠ "" → specFlag row ≠ "" →
      jsToLower (specFlag row) ≠ "no" → jsToLower (specFlag row) ≠ "false" →
      specIncluded row = true) := by
  refine ⟨loadLoop_eq_filter_map (rows.drop 1), ?_, ?_, ?_, ?_⟩
  · intro row h
    simp [specIncluded, h]
  · intro row h
    simp [specIncluded, h]
  · intro row h
    simp [specIncluded, h]
  · intro row h1 h2 h3 h4
    simp [specIncluded, h1, h2, h3, h4]

theorem c1_inclusion_filter_witness :
    loadUsernames
        [[.str "name", .undef, .undef, .undef, .str "flag"],
         [.str "alice", .undef, .undef, .undef, .str "yes"],
         [.str "bob", .undef, .undef, .undef, .str "NO"],
         [.str "carol", .undef, .undef, .undef, .str ""]] =
      ((([[.str "alice", .undef, .undef, .undef, .str "yes"],
          [.str "bob", .undef, .undef, .undef, .str "NO"],
          [.str "carol", .undef, .undef, .undef, .str ""]] :
            List (List Cell)).filter specIncluded).map specIdent) ∧
    specIncluded [.str "bob", .undef, .undef, .undef, .str "NO"] = false ∧
    specIncluded [.str "carol", .undef, .undef, .undef, .str ""] = false ∧
    specIncluded [.str "alice", .undef, .undef, .undef, .str "yes"] = true := by
  have h := c1_inclusion_filter
    [[.str "name", .undef, .undef, .undef, .str "flag"],
     [.str "alice", .undef, .undef, .undef, .str "yes"],
     [.str "bob", .undef, .undef, .undef, .str "NO"],
     [.str "carol", .undef, .undef, .undef, .str ""]]
  exact ⟨h.1,
    h.2.1 [.str "bob", .undef, .undef, .undef, .str "NO"] (by decide),
    h.2.2.2.1 [.str "carol", .undef, .undef, .undef, .str ""] (by decide),
    h.2.2.2.2 [.str "alice", .undef, .undef, .undef, .str "yes"]
      (by decide) (by decide) (by decide) (by decide)⟩

/-- C7: the roster is at most as long as the list of data rows, every
returned identifier is non-empty, and the roster is a sublist (hence in
the same relative order) of the rows' identifiers. -/
theorem c7_roster_shape (rows : List (List Cell)) :
    (loadUsernames rows).length ≤ (rows.drop 1).length ∧
    (∀ n ∈ loadUsernames rows, n ≠ "") ∧
    (loadUsernames rows).Sublist ((rows.drop 1).map specIdent) := by
  have h : loadUsernames rows = ((rows.drop 1).filter specIncluded).map specIdent :=
    loadLoop_eq_filter_map (rows.drop 1)
  refine ⟨?_, ?_, ?_⟩
  · rw [h, List.length_map]
    exact List.length_filter_le _ _
  · intro n hn
    rw [h] at hn
    obtain ⟨row, hrow, hid⟩ := List.mem_map.mp hn
    have hinc : specIncluded row = true := List.of_mem_filter hrow
    simp only [specIncluded, Bool.and_eq_true, decide_eq_true_eq] at hinc
    rw [← hid]
    exact hinc.1.1.1
  · rw [h]
    exact (List.filter_sublist _).map specIdent

theorem c7_roster_shape_witness :
    (loadUsernames
        [[.str "name"], [.str "alice", .undef, .undef, .undef, .str "yes"],
         [.str "bob", .undef, .undef, .undef, .str "no"]]).length ≤ 2 ∧
    ("alice" : String) ≠ "" := by
  have h := c7_roster_shape
    [[.str "name"], [.str "alice", .undef, .undef, .undef, .str "yes"],
     [.str "bob", .undef, .undef, .undef, .str "no"]]
  exact ⟨h.1, h.2.1 "alice" (by decide)⟩

/-- C10: a cell holding the number 0 or the boolean false in column A or
column E is coerced to the empty string before trimming, so the row is
excluded from the roster, even though the printed forms of those values
("0", "false") are non-empty strings. -/
theorem c10_falsy_cells (header row : List Cell) (pre post : List (List Cell))
    (h : row.getD 0 .undef = .num 0 ∨ row.getD 0 .undef = .boolv false ∨
         row.getD 4 .undef = .num 0 ∨ row.getD 4 .undef = .boolv false) :
    loadUsernames (header :: (pre ++ row :: post)) =
      loadUsernames (header :: (pre ++ post)) ∧
    jsOrEmptyStr (.num 0) = "" ∧ jsOrEmptyStr (.boolv false) = "" ∧
    (Cell.num 0).jsToString = "0" ∧ (Cell.boolv false).jsToString = "false" := by
  have hexc : specIncluded row = false := by
    rcases h with h | h | h | h
    · have hid : specIdent row = "" := by unfold specIdent; rw [h]; rfl
      simp [specIncluded, hid]
    · have hid : specIdent row = "" := by unfold specIdent; rw [h]; rfl
      simp [specIncluded, hid]
    · have hfl : specFlag row = "" := by unfold specFlag; rw [h]; rfl
      simp [specIncluded, hfl]
    · have hfl : specFlag row = "" := by unfold specFlag; rw [h]; rfl
      simp [specIncluded, hfl]
  refine ⟨?_, rfl, rfl, rfl, rfl⟩
  show loadLoop (pre ++ row :: post) = loadLoop (pre ++ post)
  rw [loadLoop_append, loadLoop_append]
  congr 1
  rw [loadLoop_eq_filter_map, loadLoop_eq_filter_map,
    List.filter_cons_of_neg (by simp [hexc])]

theorem c10_falsy_cells_witness :
    loadUsernames
        [[.str "name"], [.num 0, .undef, .undef, .undef, .str "yes"],
         [.str "alice", .undef, .undef, .undef, .str "yes"]] =
      loadUsernames
        [[.str "name"], [.str "alice", .undef, .undef, .undef, .str "yes"]] ∧
    (Cell.num 0).jsToString = "0" := by
  have h := c10_falsy_cells [.str "name"] [.num 0, .undef, .undef, .undef, .str "yes"]
    [] [[.str "alice", .undef, .undef, .undef, .str "yes"]] (Or.inl (by decide))
  exact ⟨h.1, h.2.2.2.1⟩

/-- C3: when the cache slot holds a (truthy) token and the current time is
strictly before the cached expiry, getToken returns that token unchanged
with no network request; consequently two consecutive calls starting from
the initial cache, the second within the expiry window, issue exactly one
credential-exchange request. -/
theorem c3_token_reuse (cache : TokenCache) (tc : String) (now : Int)
    (oauth : OAuthResponse) (hc : cache.token = some tc) (hne : tc ≠ "")
    (hfresh : now < cache.expiry) :
    getToken now cache oauth = ⟨.ok tc, cache, 0⟩ ∧
    (∀ (now1 now2 : Int) (oauth1 oauth2 : OAuthResponse) (t : String),
      oauth1.access_token = some t → t ≠ "" →
      now2 < (getToken now1 initialCache oauth1).cache.expiry →
      (getToken now1 initialCache oauth1).requests +
        (getToken now2 (getToken now1 initialCache oauth1).cache oauth2).requests = 1) := by
  constructor
  · simp [getToken, jsTruthyOpt, hc, hne, hfresh]
  · intro now1 now2 oauth1 oauth2 t ht hne2 hlt
    have h1 : getToken now1 initialCache oauth1 =
        ⟨.ok t, ⟨some t, now1 + oauth1.expires_in * 1000 - 60000⟩, 1⟩ := by
      simp [getToken, initialCache, jsTruthyOpt, ht, hne2]
    rw [h1] at hlt ⊢
    simp only at hlt
    simp [getToken, jsTruthyOpt, hne2, hlt]

theorem c3_token_reuse_witness :
    getToken 5 ⟨some "tok", 100⟩ ⟨some "x", 3600, "r"⟩ =
      ⟨.ok "tok", ⟨some "tok", 100⟩, 0⟩ ∧
    (getToken 0 initialCache ⟨some "x", 3600, "r"⟩).requests +
      (getToken 10 (getToken 0 initialCache ⟨some "x", 3600, "r"⟩).cache
        ⟨some "x", 3600, "r"⟩).requests = 1 := by
  have h := c3_token_reuse ⟨some "tok", 100⟩ "tok" 5 ⟨some "x", 3600, "r"⟩
    rfl (by decide) (by decide)
  exact ⟨h.1, h.2 0 10 ⟨some "x", 3600, "r"⟩ ⟨some "x", 3600, "r"⟩ "x"
    rfl (by decide) (by decide)⟩

/-- C5: a getToken call made when no unexpired truthy token is cached, on
a response carrying a (truthy) access token, replaces the cache slot with
the new token and expiry now + expires_in × 1000 − 60000 (with now the
time observed at the start of the call) and returns the new token. -/
theorem c5_token_refresh (now : Int) (cache : TokenCache) (oauth : OAuthResponse)
    (t : String) (hstale : ¬(jsTruthyOpt cache.token = true ∧ now < cache.expiry))
    (ht : oauth.access_token = some t) (hne : t ≠ "") :
    getToken now cache oauth =
      ⟨.ok t, ⟨some t, now + oauth.expires_in * 1000 - 60000⟩, 1⟩ := by
  unfold getToken
  rw [staleCond_false now cache hstale]
  simp [ht, jsTruthyOpt, hne]

theorem c5_token_refresh_witness :
    getToken 0 initialCache ⟨some "abc", 3600, "r"⟩ =
      ⟨.ok "abc", ⟨some "abc", 0 + 3600 * 1000 - 60000⟩, 1⟩ :=
  c5_token_refresh 0 initialCache ⟨some "abc", 3600, "r"⟩ "abc"
    (by decide) rfl (by decide)

/-- C4: when the OAuth response lacks a (truthy) access token and no
unexpired token is cached, getToken fails with an error carrying the raw
response body; on a non-empty roster the run then aborts with exit code 1,
no streams query is issued, and the output file keeps its previous
contents. -/
theorem c4_auth_abort (rows : List (List Cell)) (now : Int) (cache : TokenCache)
    (oauth : OAuthResponse) (api : List String → Option (List StreamEntry))
    (nowIso : String) (prevFile : Option Snapshot)
    (hstale : ¬(jsTruthyOpt cache.token = true ∧ now < cache.expiry))
    (hmiss : oauth.access_token = none ∨ oauth.access_token = some "")
    (hroster : loadUsernames rows ≠ []) :
    (getToken now cache oauth).outcome =
      .error ("Failed to fetch Twitch token: " ++ oauth.raw) ∧
    runMain rows now cache oauth api nowIso prevFile =
      { exitCode := 1, file := prevFile, queries := [], tokenRequests := 1 } := by
  have hfalsy : jsTruthyOpt oauth.access_token = false := by
    rcases hmiss with h | h <;> simp [jsTruthyOpt, h]
  have htok : getToken now cache oauth =
      ⟨.error ("Failed to fetch Twitch token: " ++ oauth.raw), cache, 1⟩ := by
    unfold getToken
    rw [staleCond_false now cache hstale]
    simp [hfalsy]
  have hempty : (loadUsernames rows).isEmpty = false := by
    cases hL : loadUsernames rows with
    | nil => exact absurd hL hroster
    | cons a l => rfl
  refine ⟨by rw [htok], ?_⟩
  have hcl := checkLive_error now cache oauth api (loadUsernames rows)
    ("Failed to fetch Twitch token: " ++ oauth.raw) (by rw [htok])
  simp only [runMain, hempty, Bool.false_eq_true, if_false, hcl, htok]

theorem c4_auth_abort_witness :
    (getToken 0 initialCache ⟨none, 3600, "BODY"⟩).outcome =
      .error ("Failed to fetch Twitch token: " ++ "BODY") ∧
    runMain [[.str "name"], [.str "alice", .undef, .undef, .undef, .str "yes"]]
        0 initialCache ⟨none, 3600, "BODY"⟩ (fun _ => none)
        "2026-01-01T00:00:00.000Z" (some ⟨"2025-12-31T23:55:00.000Z", []⟩) =
      { exitCode := 1, file := some ⟨"2025-12-31T23:55:00.000Z", []⟩,
        queries := [], tokenRequests := 1 } :=
  c4_auth_abort [[.str "name"], [.str "alice", .undef, .undef, .undef, .str "yes"]]
    0 initialCache ⟨none, 3600, "BODY"⟩ (fun _ => none)
    "2026-01-01T00:00:00.000Z" (some ⟨"2025-12-31T23:55:00.000Z", []⟩)
    (by decide) (Or.inl rfl) (by decide)

/-- C2: on a successful token call, checkLive issues one streams query per
batch; the queries partition the roster into consecutive batches of at
most 100 identifiers preserving order (their concatenation is the roster),
and a roster of 250 identifiers yields exactly the query sizes
[100, 100, 50] in original order. -/
theorem c2_batching (now : Int) (cache : TokenCache) (oauth : OAuthResponse)
    (api : List String → Option (List StreamEntry)) (names : List String)
    (tok : String) (htok : (getToken now cache oauth).outcome = .ok tok) :
    ((checkLive now cache oauth api names).2.1).flatten = names ∧
    (∀ b ∈ (checkLive now cache oauth api names).2.1, b ≠ [] ∧ b.length ≤ 100) ∧
    (names.length = 250 →
      ((checkLive now cache oauth api names).2.1).map List.length = [100, 100, 50]) := by
  rw [checkLive_ok now cache oauth api names tok htok]
  refine ⟨checkLiveLoop_join api names, ?_, ?_⟩
  · intro b hb
    exact checkLiveLoopF_batches api names.length names b hb
  · intro h250
    have h0 : names ≠ [] := by
      intro hnil
      rw [hnil] at h250
      simp at h250
    have l1 : (names.drop 100).length = 150 := by
      simp [List.length_drop, h250]
    have h1 : names.drop 100 ≠ [] := by
      intro hnil
      rw [hnil] at l1
      simp at l1
    have l2 : ((names.drop 100).drop 100).length = 50 := by
      simp [List.length_drop, h250]
    have h2 : (names.drop 100).drop 100 ≠ [] := by
      intro hnil
      rw [hnil] at l2
      simp at l2
    have h3 : (((names.drop 100).drop 100).drop 100) = [] := by
      rw [← List.length_eq_zero]
      simp [List.length_drop, h250]
    show ((checkLiveLoop api names).1).map List.length = [100, 100, 50]
    rw [checkLiveLoop_step api names h0, checkLiveLoop_step api _ h1,
      checkLiveLoop_step api _ h2, h3, checkLiveLoop_nil]
    simp [List.length_take, h250, l1, l2]

theorem c2_batching_witness :
    ((checkLive 0 ⟨some "tok", 100⟩ ⟨some "x", 3600, "r"⟩
        (fun _ => none) names250).2.1).flatten = names250 ∧
    ((checkLive 0 ⟨some "tok", 100⟩ ⟨some "x", 3600, "r"⟩
        (fun _ => none) names250).2.1).map List.length = [100, 100, 50] := by
  have h := c2_batching 0 ⟨some "tok", 100⟩ ⟨some "x", 3600, "r"⟩
    (fun _ => none) names250 "tok" rfl
  exact ⟨h.1, h.2.2 (by simp [names250])⟩

/-- C6: on a successful token call, a batch whose response has no data
collection contributes zero records while every batch is still queried
(the query list does not depend on the responses), and checkLive returns
the concatenation of the batches' records in batch order, preserving each
response's internal order, with title and game defaulted to the empty
string when absent. -/
theorem c6_batch_degradation (now : Int) (cache : TokenCache) (oauth : OAuthResponse)
    (api api2 : List String → Option (List StreamEntry)) (names : List String)
    (tok : String) (htok : (getToken now cache oauth).outcome = .ok tok) :
    (checkLive now cache oauth api names).2.2 =
      .ok (((checkLive now cache oauth api names).2.1).flatMap
        (fun b => recsOf (api b))) ∧
    (checkLive now cache oauth api names).2.1 =
      (checkLive now cache oauth api2 names).2.1 ∧
    recsOf none = [] ∧
    (∀ ds : List StreamEntry, recsOf (some ds) = ds.map mkRecord) ∧
    (∀ s : StreamEntry, s.title = none → (mkRecord s).title = "") ∧
    (∀ s : StreamEntry, s.game_name = none → (mkRecord s).game = "") := by
  rw [checkLive_ok now cache oauth api names tok htok,
    checkLive_ok now cache oauth api2 names tok htok]
  refine ⟨?_, ?_, rfl, fun ds => rfl, ?_, ?_⟩
  · show Except.ok ((checkLiveLoop api names).2) = _
    rw [checkLiveLoop_records api names]
  · exact checkLiveLoopF_queries_indep api api2 names.length names
  · intro s h
    simp [mkRecord, h]
  · intro s h
    simp [mkRecord, h]

theorem c6_batch_degradation_witness :
    (checkLive 0 ⟨some "tok", 100⟩ ⟨some "x", 3600, "r"⟩
        (fun _ => none) ["alice", "bob"]).2.2 =
      .ok (((checkLive 0 ⟨some "tok", 100⟩ ⟨some "x", 3600, "r"⟩
        (fun _ => none) ["alice", "bob"]).2.1).flatMap (fun _ => recsOf none)) ∧
    (mkRecord ⟨"alice", none, none, "2026-01-01T00:00:00Z"⟩).title = "" := by
  have h := c6_batch_degradation 0 ⟨some "tok", 100⟩ ⟨some "x", 3600, "r"⟩
    (fun _ => none) (fun _ => some []) ["alice", "bob"] "tok" rfl
  exact ⟨h.1, h.2.2.2.2.1 ⟨"alice", none, none, "2026-01-01T00:00:00Z"⟩ rfl⟩

/-- C8: the snapshot writer is deterministic modulo timestamp: it produces
the snapshot whose timestamp is the given time and whose live list is the
records exactly as given, so two snapshots built from the same records
are equal exactly when their timestamps are. -/
theorem c8_snapshot_writer (ts1 ts2 : String) (records : List LiveRecord) :
    (writeJSON ts1 records).live = records ∧
    (writeJSON ts1 records).timestamp = ts1 ∧
    (writeJSON ts1 records).live = (writeJSON ts2 records).live ∧
    (writeJSON ts1 records = writeJSON ts2 records ↔ ts1 = ts2) := by
  refine ⟨rfl, rfl, rfl, ?_⟩
  constructor
  · intro h
    exact congrArg Snapshot.timestamp h
  · intro h
    rw [h]

/-- C9 counterexample: with no environment variables and a config file
that parses to a pair of empty strings, neither source yields usable
(non-empty) credentials and the resolver proceeds with empty credentials,
yet no warning is emitted, contradicting the claim that a warning is
emitted whenever neither source yields usable values. -/
theorem c9_counterexample :
    (resolveConfig none none (.ok ⟨"", ""⟩)).1 = ⟨"", ""⟩ ∧
    (resolveConfig none none (.ok ⟨"", ""⟩)).2 = false := by
  exact ⟨rfl, rfl⟩

/-- C9 (amended): the Config Resolver is total (it always produces a
Credentials value) and emits the warning exactly when the environment
variables are not both truthy and the file read/parse fails; in that
case, and only then, it proceeds with empty credentials because of the
warning path. A file that parses successfully is used as-is, even when
its fields are empty, with no warning. -/
theorem c9_config_resolver (envId envSecret : Option String)
    (file : Except Unit Credentials) :
    ((resolveConfig envId envSecret file).2 = true ↔
      ((jsTruthyOpt envId && jsTruthyOpt envSecret) = false ∧
        file.isOk = false)) ∧
    ((resolveConfig envId envSecret file).2 = true →
      resolveConfig envId envSecret file = (⟨"", ""⟩, true)) ∧
    (∀ c : Credentials, (jsTruthyOpt envId && jsTruthyOpt envSecret) = false →
      file = .ok c → resolveConfig envId envSecret file = (c, false)) := by
  unfold resolveConfig
  cases hc : (jsTruthyOpt envId && jsTruthyOpt envSecret) with
  | true =>
    refine ⟨by simp, by simp, ?_⟩
    intro c hfalse _
    cases hfalse
  | false =>
    cases file with
    | ok c =>
      refine ⟨by simp [Except.isOk, Except.toBool], by simp, ?_⟩
      intro c2 _ heq
      cases heq
      simp
    | error e =>
      refine ⟨by simp [Except.isOk, Except.toBool], by simp, ?_⟩
      intro c2 _ heq
      cases heq

theorem c9_config_resolver_witness :
    resolveConfig none none (.error ()) = (⟨"", ""⟩, true) ∧
    resolveConfig none none (.ok ⟨"id", "sec"⟩) = (⟨"id", "sec"⟩, false) := by
  have h1 := c9_config_resolver none none (.error ())
  have h2 := c9_config_resolver none none (.ok ⟨"id", "sec"⟩)
  exact ⟨h1.2.1 (h1.1.mpr ⟨rfl, rfl⟩), h2.2.2 ⟨"id", "sec"⟩ rfl rfl⟩
